import Mathlib

/-!
Shallow embedding of the stash-cache and recipe-generation core of
SJChaosHelper (`src/helper/src/lib.rs`).

Conventions used throughout:
* Rust `Vec<Item>` / slices become `List Item`; slice re-assignment
  (`list_tuple.0 = remains`) becomes explicit state passing.
* `Either::Left` (an item drawn from the low-tier / "chaos" list, item
  level 60..74) becomes `Sum.inl`; `Either::Right` (high-tier / "regal"
  list, item level >= 75) becomes `Sum.inr`.
* The Rust `HashMap<ItemType, (Vec<Item>, Vec<Item>)>` is modelled as a
  total function `ItemType → List Item × List Item`, with a missing key
  represented by `([], [])`.  This is observably equivalent: every
  access in the source goes through `get_mut(..).and_then(..)` where an
  absent key and a key holding two empty lists behave identically, and
  the classifier never creates an entry without immediately pushing an
  item into it, so `HashMap` equality coincides with extensional
  equality of the total functions on all maps the program constructs.
-/

namespace ChaosHelper

/-- Embeds `enum ItemType` (lib.rs:419-431). -/
inductive ItemType
  | Weapon1HOrShield
  | Weapon2H
  | Body
  | Helmet
  | Boots
  | Gloves
  | Ring
  | Amulet
  | Belt
  | Useless
deriving DecidableEq, Repr, Fintype

/-- Embeds `struct Item` (lib.rs:360-371). `frame_type = 2` is the
qualifying (unique) rarity. -/
structure Item where
  w : Nat
  h : Nat
  x : Nat
  y : Nat
  ilvl : Nat
  frame_type : Nat
  itype : ItemType
deriving DecidableEq, Repr

/-- Embeds `ChaosRecipeSet = HashMap<ItemType, (Vec<Item>, Vec<Item>)>`
(lib.rs:90-92) as a total function; the first list is the low-tier
("Chaos-able") list, the second the high-tier ("Regal-able") list. -/
abbrev ChaosRecipeSet := ItemType → List Item × List Item

/-- The empty map (`HashMap::new()`). -/
def emptyInv : ChaosRecipeSet := fun _ => ([], [])

/-- `Either::into_inner` on `Either<&Item, &Item>`. -/
def sumVal : Item ⊕ Item → Item
  | Sum.inl i => i
  | Sum.inr i => i

/-- Embeds `ChaosListGenerator::get_item` (lib.rs:119-152): with
`can_make_chaos = true` take the head of the high-tier (regal) list,
falling back to the low-tier (chaos) list; with `false` the other way
round.  Returns the drawn item tagged with the list it came from, and
the advanced list pair. -/
def getItem (lt : List Item × List Item) (can_make_chaos : Bool) :
    Option ((Item ⊕ Item) × (List Item × List Item)) :=
  match can_make_chaos with
  | true =>
    match lt.2 with
    | item :: remains => some (Sum.inr item, (lt.1, remains))
    | [] =>
      match lt.1 with
      | item :: remains => some (Sum.inl item, (remains, lt.2))
      | [] => none
  | false =>
    match lt.1 with
    | item :: remains => some (Sum.inl item, (remains, lt.2))
    | [] =>
      match lt.2 with
      | item :: remains => some (Sum.inr item, (lt.1, remains))
      | [] => none

/-- Embeds `ChaosListGenerator::get_item_by_type` (lib.rs:109-117). -/
def getItemByType (s : ChaosRecipeSet) (i_type : ItemType) (can_make_chaos : Bool) :
    Option ((Item ⊕ Item) × ChaosRecipeSet) :=
  (getItem (s i_type) can_make_chaos).map fun p =>
    (p.1, Function.update s i_type p.2)

/-- Embeds the `Weapon1HOrShield` stage of
`ChaosListGenerator::get_weapon_items` (lib.rs:155-180), i.e. the body
of the closure passed to `get_mut(&ItemType::Weapon1HOrShield).and_then`.
The source mutates the entry in place through a `&mut` borrow, so list
consumption persists even when the stage as a whole produces `None`;
therefore the advanced list pair is returned alongside the optional
weapon vector. -/
def attemptW1H (lt : List Item × List Item) (can_make_chaos : Bool) :
    Option (List Item) × (List Item × List Item) :=
  match can_make_chaos with
  | true =>
    match getItem lt true with
    | none => (none, lt)
    | some (e1, lt1) =>
      match getItem lt1 true with
      | none => (none, lt1)
      | some (e2, lt2) => (some [sumVal e1, sumVal e2], lt2)
  | false =>
    match getItem lt false with
    | none => (none, lt)
    | some (Sum.inl item, lt1) =>
      match getItem lt1 true with
      | none => (none, lt1)
      | some (e2, lt2) => (some [sumVal e2, item], lt2)
    | some (Sum.inr item, lt1) =>
      match getItem lt1 false with
      | none => (none, lt1)
      | some (e2, lt2) =>
        match e2 with
        | Sum.inl item2 => (some [item, item2], lt2)
        | Sum.inr _ => (none, lt2)

/-- Embeds `ChaosListGenerator::get_weapon_items` (lib.rs:154-195):
first the `Weapon1HOrShield` stage, then on failure the `or_else`
fallback to `Weapon2H`, where with `can_make_chaos = false` only a
low-tier (`Either::Left`) two-handed item is accepted
(`e.left()`, lib.rs:189). -/
def getWeaponItems (s : ChaosRecipeSet) (can_make_chaos : Bool) :
    Option (List Item ⊕ Item) × ChaosRecipeSet :=
  match attemptW1H (s ItemType.Weapon1HOrShield) can_make_chaos with
  | (some items, lt) =>
    (some (Sum.inl items), Function.update s ItemType.Weapon1HOrShield lt)
  | (none, lt) =>
    let s1 := Function.update s ItemType.Weapon1HOrShield lt
    match getItem (s1 ItemType.Weapon2H) can_make_chaos with
    | none => (none, s1)
    | some (e, lt2) =>
      let s2 := Function.update s1 ItemType.Weapon2H lt2
      match can_make_chaos, e with
      | true, e => (some (Sum.inr (sumVal e)), s2)
      | false, Sum.inl item => (some (Sum.inr item), s2)
      | false, Sum.inr _ => (none, s2)

/-- The fixed non-weapon slot order `recipe_without_weapons`
(lib.rs:203-212). -/
def recipeWithoutWeapons : List ItemType :=
  [ItemType.Amulet, ItemType.Belt, ItemType.Body, ItemType.Boots,
   ItemType.Gloves, ItemType.Helmet, ItemType.Ring, ItemType.Ring]

/-- Embeds the `try_fold` over `recipe_without_weapons` in
`ChaosListGenerator::next` (lib.rs:215-232): one item per slot type,
`can_make_chaos` flipped to `true` whenever the drawn item was
`Either::Left` (low tier).  As with `attemptW1H`, consumption performed
before a failing slot persists in the returned state. -/
def fillSlots : List ItemType → ChaosRecipeSet → Bool → List Item →
    Option (List Item × Bool) × ChaosRecipeSet
  | [], s, c, acc => (some (acc, c), s)
  | t :: ts, s, c, acc =>
    match getItemByType s t c with
    | none => (none, s)
    | some (Sum.inl item, s1) => fillSlots ts s1 true (acc ++ [item])
    | some (Sum.inr item, s1) => fillSlots ts s1 c (acc ++ [item])

/-- Embeds `<ChaosListGenerator as Iterator>::next` (lib.rs:201-250):
fill the eight non-weapon slots starting with `can_make_chaos = false`,
then append the weapon items (`vec.append` for a one-hand pair,
`vec.push` for a two-hander). -/
def genNext (s : ChaosRecipeSet) : Option (List Item) × ChaosRecipeSet :=
  match fillSlots recipeWithoutWeapons s false [] with
  | (none, s1) => (none, s1)
  | (some (vec, c), s1) =>
    match getWeaponItems s1 c with
    | (none, s2) => (none, s2)
    | (some (Sum.inl items), s2) => (some (vec ++ items), s2)
    | (some (Sum.inr item), s2) => (some (vec ++ [item]), s2)

/-- The lazy bundle sequence: iterate `genNext` until it yields `None`,
with an explicit fuel bound (each successful step consumes at least one
item, so any fuel above the total item count is conservative). -/
def genBundles : Nat → ChaosRecipeSet → List (List Item)
  | 0, _ => []
  | n + 1, s =>
    match genNext s with
    | (none, _) => []
    | (some b, s1) => b :: genBundles n s1

/-- All ten `ItemType` constructors, in declaration order. -/
def typesList : List ItemType :=
  [ItemType.Weapon1HOrShield, ItemType.Weapon2H, ItemType.Body,
   ItemType.Helmet, ItemType.Boots, ItemType.Gloves, ItemType.Ring,
   ItemType.Amulet, ItemType.Belt, ItemType.Useless]

/-- Every item stored in a classified inventory, low tier before high
tier within each type. -/
def allItems (s : ChaosRecipeSet) : List Item :=
  (typesList.map fun t => (s t).1 ++ (s t).2).flatten

/-! ## Item classifier (fetch worker, lib.rs:259-281) -/

/-- One step of the classification loop `for item in stash_data.items`
(lib.rs:266-276): skip any item with `ilvl < 60` or `frame_type != 2`;
otherwise push it onto the low-tier list of its type if `ilvl < 75`,
else onto the high-tier list. -/
def classifyStep (m : ChaosRecipeSet) (item : Item) : ChaosRecipeSet :=
  if item.ilvl < 60 ∨ item.frame_type ≠ 2 then m
  else
    let lt := m item.itype
    if item.ilvl < 75 then Function.update m item.itype (lt.1 ++ [item], lt.2)
    else Function.update m item.itype (lt.1, lt.2 ++ [item])

/-- The whole classification pass over a raw snapshot's item list. -/
def classify (items : List Item) : ChaosRecipeSet :=
  items.foldl classifyStep emptyInv

/-- Embeds the match arms of `ItemTypeVisitor::visit_str`
(lib.rs:442-475) over the two regex capture groups of
`/2DItems/(.+?)/(.+?)(\.png|/)`; `Except.error ()` models
`de::Error::invalid_value` (the arms where no type can be derived). -/
def itemTypeFromParts : Option String → Option String → Except Unit ItemType
  | some "Armours", some "Boots" => Except.ok ItemType.Boots
  | some "Armours", some "Helmets" => Except.ok ItemType.Helmet
  | some "Armours", some "Gloves" => Except.ok ItemType.Gloves
  | some "Armours", some "BodyArmours" => Except.ok ItemType.Body
  | some "Armours", some "Shields" => Except.ok ItemType.Weapon1HOrShield
  | some "Weapons", some "OneHandWeapons" => Except.ok ItemType.Weapon1HOrShield
  | some "Weapons", some "TwoHandWeapons" => Except.ok ItemType.Weapon2H
  | some "Weapons", some "Bows" => Except.ok ItemType.Weapon2H
  | some "Amulets", _ => Except.ok ItemType.Amulet
  | some "Rings", _ => Except.ok ItemType.Ring
  | some "Belts", _ => Except.ok ItemType.Belt
  | some _, some _ => Except.ok ItemType.Useless
  | _, _ => Except.error ()

/-! ## Cache coordinator (`network_thread_func`, lib.rs:253-339)

The coordinator loop owns `map` (the current classified inventory),
`chaos_queue` and `total_count`; `IS_QUAD_STASH` is read once per
message, so it is carried as a state field.  `anyhow::Error` is opaque
to this layer and is modelled as a `String`. -/

abbrev FetchError := String

/-- Embeds `enum ResponseFromNetwork` (lib.rs:483-489); the response
sender channels are abstracted away, a handler returns its response. -/
inductive ResponseFromNetwork
  | chaosRecipe : List Item → Bool → ResponseFromNetwork
  | stashStatus : ChaosRecipeSet → Nat → ResponseFromNetwork

/-- Embeds `enum InternalMessage` (lib.rs:477-481). -/
inductive InternalMessage
  | requestChaosRecipe
  | requestStashStatus

/-- The coordinator's mutable state (lib.rs:285-290). -/
structure CoordState where
  map : ChaosRecipeSet
  chaosQueue : List (List Item)
  totalCount : Nat
  isQuadStash : Bool

/-- `ChaosListGenerator::new(&map).collect()` (lib.rs:286, 313): run the
generator to exhaustion.  Fuel `(allItems m).length + 1` is conservative
since every yielded bundle consumes at least one item. -/
def collectBundles (m : ChaosRecipeSet) : List (List Item) :=
  genBundles ((allItems m).length + 1) m

/-- Embeds the `InternalMessage::RequestChaosRecipe` arm
(lib.rs:292-305): pop the queue front if non-empty, otherwise answer
with an empty bundle; always paired with the current quad-stash flag,
always `Ok`. -/
def handleBundleReq (st : CoordState) : CoordState × Except FetchError ResponseFromNetwork :=
  match st.chaosQueue with
  | chaosList :: rest =>
    ({ st with chaosQueue := rest },
      Except.ok (ResponseFromNetwork.chaosRecipe chaosList st.isQuadStash))
  | [] => (st, Except.ok (ResponseFromNetwork.chaosRecipe [] st.isQuadStash))

/-- Embeds the `InternalMessage::RequestStashStatus` arm
(lib.rs:306-335) after the non-blocking drain: `recvResult` is
`data_recv.try_iter().last()`, the latest fetch result if any. -/
def handleStatusReq (st : CoordState) (recvResult : Option (Except FetchError ChaosRecipeSet)) :
    CoordState × Except FetchError ResponseFromNetwork :=
  match recvResult with
  | some (Except.ok newMap) =>
    if newMap ≠ st.map then
      let queue := collectBundles newMap
      ({ st with map := newMap, chaosQueue := queue, totalCount := queue.length },
        Except.ok (ResponseFromNetwork.stashStatus newMap queue.length))
    else (st, Except.ok (ResponseFromNetwork.stashStatus st.map st.totalCount))
  | some (Except.error e) => (st, Except.error e)
  | none => (st, Except.ok (ResponseFromNetwork.stashStatus st.map st.totalCount))

/-- Which message arms signal the fetch worker: only the status arm
executes `in_send.try_send(()).ok()` (lib.rs:307); the bundle arm never
touches the network side. -/
def signalsFetch : InternalMessage → Bool
  | InternalMessage.requestChaosRecipe => false
  | InternalMessage.requestStashStatus => true

/-! ## Refresh-signal coalescing (lib.rs:255-283, 307)

The fetch worker is a single thread looping `recv → fetch → send`; the
coordinator signals it through `mpsc::sync_channel::<()>(1)` with
`try_send`, which succeeds exactly when the one-slot buffer is empty
and otherwise drops the signal.  `mailbox` is that buffer, `fetching`
is true between the worker's `recv` and the completion of
`get_stash_data_in` (there is one worker thread, so `fetching` being a
single boolean is structural: at most one fetch is ever in flight). -/

structure FetchSystem where
  mailbox : Bool
  fetching : Bool
  initiated : Nat
  completed : Nat
deriving DecidableEq, Repr

/-- `in_send.try_send(()).ok()`: succeeds (fills the slot) iff the slot
is empty; a send onto a full slot is dropped.  Returns whether the
signal was accepted. -/
def trySendRefresh (s : FetchSystem) : FetchSystem × Bool :=
  if s.mailbox then (s, false) else ({ s with mailbox := true }, true)

inductive SysEvent
  | signal
  | startFetch
  | finishFetch
deriving DecidableEq, Repr

/-- Interleaving semantics: a coordinator signal, the worker dequeuing
a signal and starting a fetch (only possible when a signal is queued
and the single worker is idle), and a fetch completing.  Disabled
events leave the state unchanged. -/
def sysStep (s : FetchSystem) : SysEvent → FetchSystem
  | SysEvent.signal => (trySendRefresh s).1
  | SysEvent.startFetch =>
    if s.mailbox ∧ ¬s.fetching then
      { s with mailbox := false, fetching := true, initiated := s.initiated + 1 }
    else s
  | SysEvent.finishFetch =>
    if s.fetching then { s with fetching := false, completed := s.completed + 1 }
    else s

def sysRun (events : List SysEvent) (s : FetchSystem) : FetchSystem :=
  events.foldl sysStep s

def initSystem : FetchSystem := ⟨false, false, 0, 0⟩

/-! ## Spec-side renderings (for refinement claims)

These definitions follow the specification's words, not the source;
each is compared against the corresponding source translation by a
theorem below. -/

/-- Spec §4.2 step 2 per-pick rule, as worded: with the preference flag
set, "take the next unconsumed high-tier item if one exists; otherwise
take the next unconsumed low-tier item", and dually when unset.
Returns the item, whether it came from the low-tier list, and the
remaining lists. -/
def specSelect (low high : List Item) (preferHigh : Bool) :
    Option (Item × Bool × List Item × List Item) :=
  if preferHigh then
    match high with
    | i :: hs => some (i, false, low, hs)
    | [] =>
      match low with
      | i :: ls => some (i, true, ls, [])
      | [] => none
  else
    match low with
    | i :: ls => some (i, true, ls, high)
    | [] =>
      match high with
      | i :: hs => some (i, false, [], hs)
      | [] => none

/-- Spec §4.2 step 2, as worded: walk the slot types in order, select
each slot with `specSelect`, set the preference flag as soon as any
slot draws a low-tier item, and fail the whole pass (yielding no
partial bundle) as soon as a slot cannot be filled. -/
def specSlotPass : List ItemType → ChaosRecipeSet → Bool → Option (List Item × Bool × ChaosRecipeSet)
  | [], s, flag => some ([], flag, s)
  | t :: ts, s, flag =>
    match specSelect (s t).1 (s t).2 flag with
    | none => none
    | some (i, fromLow, low2, high2) =>
      (specSlotPass ts (Function.update s t (low2, high2)) (flag || fromLow)).map
        fun q => (i :: q.1, q.2)

/-- Spec-side rendering of the amended flag-`false` one-hand-weapon
rule: the first pick is the head of the low-tier list when non-empty
(falling back to the high-tier head); after a low-tier first pick the
second pick prefers high tier and the pair is emitted second-pick
first; after a high-tier first pick (possible only with an empty
low-tier list) the mandatory low-tier second pick always fails,
consuming up to one further high-tier item and yielding nothing. -/
def specW1HFalse (cl rl : List Item) : Option (List Item) × (List Item × List Item) :=
  match cl with
  | c0 :: ctail =>
    match rl with
    | r0 :: rtail => (some [r0, c0], (ctail, rtail))
    | [] =>
      match ctail with
      | c1 :: crest => (some [c1, c0], (crest, []))
      | [] => (none, (ctail, rl))
  | [] =>
    match rl with
    | _ :: r1 =>
      match r1 with
      | _ :: r2 => (none, ([], r2))
      | [] => (none, ([], []))
    | [] => (none, ([], []))

/-! ## Concrete inventories used by counterexamples and witnesses -/

/-- A qualifying-rarity item; `n` is an identifying grid position. -/
def mkItem (n : Nat) (t : ItemType) (lv : Nat) : Item :=
  ⟨1, 1, n, 0, lv, 2, t⟩

def exAm : Item := mkItem 0 ItemType.Amulet 60
def exBe : Item := mkItem 1 ItemType.Belt 60
def exBo : Item := mkItem 2 ItemType.Body 60
def exBt : Item := mkItem 3 ItemType.Boots 60
def exGl : Item := mkItem 4 ItemType.Gloves 60
def exHe : Item := mkItem 5 ItemType.Helmet 60
def exR1 : Item := mkItem 6 ItemType.Ring 60
def exR2 : Item := mkItem 7 ItemType.Ring 60
def exW1a : Item := mkItem 8 ItemType.Weapon1HOrShield 60
def exW1b : Item := mkItem 9 ItemType.Weapon1HOrShield 60

/-- One complete low-tier recipe's worth of items, with two one-hand
weapons available. -/
def exInv1 : ChaosRecipeSet := fun t =>
  match t with
  | ItemType.Amulet => ([exAm], [])
  | ItemType.Belt => ([exBe], [])
  | ItemType.Body => ([exBo], [])
  | ItemType.Boots => ([exBt], [])
  | ItemType.Gloves => ([exGl], [])
  | ItemType.Helmet => ([exHe], [])
  | ItemType.Ring => ([exR1, exR2], [])
  | ItemType.Weapon1HOrShield => ([exW1a, exW1b], [])
  | _ => ([], [])

def exBundle1 : List Item :=
  [exAm, exBe, exBo, exBt, exGl, exHe, exR1, exR2, exW1a, exW1b]

def exH1 : Item := mkItem 10 ItemType.Weapon1HOrShield 80
def exH2 : Item := mkItem 11 ItemType.Weapon1HOrShield 81

/-- One-hand pool holding only high-tier items (and nothing else). -/
def sC2 : ChaosRecipeSet := fun t =>
  match t with
  | ItemType.Weapon1HOrShield => ([], [exH1, exH2])
  | _ => ([], [])

def exW2h : Item := mkItem 12 ItemType.Weapon2H 80

/-- Empty one-hand pool, a single high-tier two-hander remaining. -/
def sC3 : ChaosRecipeSet := fun t =>
  match t with
  | ItemType.Weapon2H => ([], [exW2h])
  | _ => ([], [])

def exAmH : Item := mkItem 20 ItemType.Amulet 80
def exBeH : Item := mkItem 21 ItemType.Belt 80
def exBoH : Item := mkItem 22 ItemType.Body 80
def exBtH : Item := mkItem 23 ItemType.Boots 80
def exGlH : Item := mkItem 24 ItemType.Gloves 80
def exHeH : Item := mkItem 25 ItemType.Helmet 80
def exR1H : Item := mkItem 26 ItemType.Ring 80
def exR2H : Item := mkItem 27 ItemType.Ring 80
def exW2l : Item := mkItem 28 ItemType.Weapon2H 60

/-- All eight non-weapon slots hold only high-tier items (so the
preference flag stays `false`), the one-hand pool holds two high-tier
items and the two-hand pool one low-tier item. -/
def exC10 : ChaosRecipeSet := fun t =>
  match t with
  | ItemType.Amulet => ([], [exAmH])
  | ItemType.Belt => ([], [exBeH])
  | ItemType.Body => ([], [exBoH])
  | ItemType.Boots => ([], [exBtH])
  | ItemType.Gloves => ([], [exGlH])
  | ItemType.Helmet => ([], [exHeH])
  | ItemType.Ring => ([], [exR1H, exR2H])
  | ItemType.Weapon1HOrShield => ([], [exH1, exH2])
  | ItemType.Weapon2H => ([exW2l], [])
  | _ => ([], [])

def exBundleC10 : List Item :=
  [exAmH, exBeH, exBoH, exBtH, exGlH, exHeH, exR1H, exR2H, exW2l]

/-- Weapons/Bows items at the three item levels named by the spec. -/
def bows74 : Item := ⟨2, 4, 0, 0, 74, 2, ItemType.Weapon2H⟩
def bows75 : Item := ⟨2, 4, 0, 0, 75, 2, ItemType.Weapon2H⟩
def bows59 : Item := ⟨2, 4, 0, 0, 59, 2, ItemType.Weapon2H⟩

/-- Inventory holding a single amulet. -/
def invAmOnly : ChaosRecipeSet := fun t =>
  match t with
  | ItemType.Amulet => ([exAm], [])
  | _ => ([], [])

/-- A coordinator state with one queued bundle. -/
def stA : CoordState := ⟨exInv1, [[exAm]], 3, true⟩

/-- A coordinator state with an empty queue and an empty inventory. -/
def stB : CoordState := ⟨emptyInv, [], 0, false⟩

/-! ## Auxiliary predicates -/

/-- Every list of the inventory holds only items of its key's type;
this holds for every classifier output, since the classifier routes an
item into the lists of `item.itype`. -/
def WellTyped (s : ChaosRecipeSet) : Prop :=
  ∀ t, (∀ i ∈ (s t).1, i.itype = t) ∧ (∀ i ∈ (s t).2, i.itype = t)

instance (s : ChaosRecipeSet) : Decidable (WellTyped s) :=
  inferInstanceAs (Decidable (∀ t, (∀ i ∈ (s t).1, i.itype = t) ∧ (∀ i ∈ (s t).2, i.itype = t)))

/-- How often `x` occurs across the whole inventory. -/
def countInv (x : Item) (s : ChaosRecipeSet) : Nat :=
  (allItems s).count x

/-- Both components of `a` are (not necessarily proper) tail segments
of the components of `b`: the pair cursor only ever moves forward. -/
def IsSuffixPair (a b : List Item × List Item) : Prop :=
  (∃ p, b.1 = p ++ a.1) ∧ (∃ p, b.2 = p ++ a.2)

/-- Pointwise cursor-advance between two inventories. -/
def InvAdvance (s' s : ChaosRecipeSet) : Prop :=
  ∀ t, IsSuffixPair (s' t) (s t)

/-- Occurrences of `x` in a weapon-stage result. -/
def weaponCount (x : Item) : Option (List Item ⊕ Item) → Nat
  | some (Sum.inl items) => items.count x
  | some (Sum.inr i) => if i = x then 1 else 0
  | none => 0

/-- Spec-side membership test for the low-tier bucket of type `t`:
qualifying rarity, item level in 60..74, and the item's type is `t`. -/
def lowFilter (t : ItemType) (i : Item) : Bool :=
  decide (60 ≤ i.ilvl ∧ i.frame_type = 2 ∧ i.ilvl < 75 ∧ i.itype = t)

/-- Spec-side membership test for the high-tier bucket of type `t`:
qualifying rarity, item level at least 75, and the item's type is `t`. -/
def highFilter (t : ItemType) (i : Item) : Bool :=
  decide (60 ≤ i.ilvl ∧ i.frame_type = 2 ∧ 75 ≤ i.ilvl ∧ i.itype = t)

/-! ## Basic lemmas about `getItem` -/

/-- A successful `getItem` takes exactly the head of one of the two
lists and leaves the other untouched. -/
lemma getItem_cases {lt : List Item × List Item} {c : Bool} {e : Item ⊕ Item}
    {lt' : List Item × List Item} (h : getItem lt c = some (e, lt')) :
    (∃ i tl, e = Sum.inl i ∧ lt.1 = i :: tl ∧ lt' = (tl, lt.2))
  ∨ (∃ i tl, e = Sum.inr i ∧ lt.2 = i :: tl ∧ lt' = (lt.1, tl)) := by
  obtain ⟨cl, rl⟩ := lt
  cases c with
  | false =>
    cases cl with
    | cons i tl =>
      simp only [getItem, Option.some.injEq, Prod.mk.injEq] at h
      exact Or.inl ⟨i, tl, h.1.symm, rfl, h.2.symm⟩
    | nil =>
      cases rl with
      | cons i tl =>
        simp only [getItem, Option.some.injEq, Prod.mk.injEq] at h
        exact Or.inr ⟨i, tl, h.1.symm, rfl, h.2.symm⟩
      | nil => simp [getItem] at h
  | true =>
    cases rl with
    | cons i tl =>
      simp only [getItem, Option.some.injEq, Prod.mk.injEq] at h
      exact Or.inr ⟨i, tl, h.1.symm, rfl, h.2.symm⟩
    | nil =>
      cases cl with
      | cons i tl =>
        simp only [getItem, Option.some.injEq, Prod.mk.injEq] at h
        exact Or.inl ⟨i, tl, h.1.symm, rfl, h.2.symm⟩
      | nil => simp [getItem] at h

/-- `getItem` implements the spec's per-pick tier-preference rule. -/
lemma getItem_eq_specSelect (low high : List Item) (c : Bool) :
    getItem (low, high) c
      = (specSelect low high c).map fun q =>
          ((if q.2.1 then Sum.inl q.1 else Sum.inr q.1), q.2.2) := by
  cases c <;> cases low <;> cases high <;> rfl

/-! ## Slot typing -/

lemma getItem_typed {lt : List Item × List Item} {c : Bool} {e : Item ⊕ Item}
    {lt' : List Item × List Item} {t : ItemType}
    (h1 : ∀ i ∈ lt.1, i.itype = t) (h2 : ∀ i ∈ lt.2, i.itype = t)
    (h : getItem lt c = some (e, lt')) :
    (sumVal e).itype = t ∧ (∀ i ∈ lt'.1, i.itype = t) ∧ (∀ i ∈ lt'.2, i.itype = t) := by
  rcases getItem_cases h with ⟨i, tl, he, hl, hlt⟩ | ⟨i, tl, he, hl, hlt⟩ <;>
    subst he <;> subst hlt
  · refine ⟨h1 i (by rw [hl]; exact List.mem_cons_self i tl), ?_, h2⟩
    intro j hj
    exact h1 j (by rw [hl]; exact List.mem_cons_of_mem i hj)
  · refine ⟨h2 i (by rw [hl]; exact List.mem_cons_self i tl), h1, ?_⟩
    intro j hj
    exact h2 j (by rw [hl]; exact List.mem_cons_of_mem i hj)

lemma wellTyped_update {s : ChaosRecipeSet} {t : ItemType}
    {lt : List Item × List Item} (hs : WellTyped s)
    (h1 : ∀ i ∈ lt.1, i.itype = t) (h2 : ∀ i ∈ lt.2, i.itype = t) :
    WellTyped (Function.update s t lt) := by
  intro t'
  by_cases ht : t' = t
  · subst ht; rw [Function.update_same]; exact ⟨h1, h2⟩
  · rw [Function.update_noteq ht]; exact hs t'

lemma getItemByType_typed {s : ChaosRecipeSet} {t : ItemType} {c : Bool}
    {e : Item ⊕ Item} {s' : ChaosRecipeSet} (hs : WellTyped s)
    (h : getItemByType s t c = some (e, s')) :
    (sumVal e).itype = t ∧ WellTyped s' := by
  rcases hg : getItem (s t) c with _ | ⟨e0, lt'⟩
  · simp [getItemByType, hg] at h
  · simp only [getItemByType, hg, Option.map_some', Option.some.injEq,
      Prod.mk.injEq] at h
    obtain ⟨he, hs'⟩ := h
    subst he
    obtain ⟨hty, hl1, hl2⟩ := getItem_typed (hs t).1 (hs t).2 hg
    exact ⟨hty, hs' ▸ wellTyped_update hs hl1 hl2⟩

lemma fillSlots_typed : ∀ (ts : List ItemType) {s : ChaosRecipeSet} {c : Bool}
    {acc vec : List Item} {c' : Bool} {s' : ChaosRecipeSet},
    WellTyped s →
    fillSlots ts s c acc = (some (vec, c'), s') →
    vec.map Item.itype = acc.map Item.itype ++ ts ∧ WellTyped s'
  | [], s, c, acc, vec, c', s', hs, h => by
    simp only [fillSlots, Prod.mk.injEq, Option.some.injEq] at h
    obtain ⟨⟨h1, _⟩, h3⟩ := h
    subst h1; subst h3
    exact ⟨(List.append_nil _).symm, hs⟩
  | t :: ts, s, c, acc, vec, c', s', hs, h => by
    rcases hg : getItemByType s t c with _ | ⟨e, s1⟩
    · rw [fillSlots, hg] at h; simp at h
    · obtain ⟨hty, hs1⟩ := getItemByType_typed hs hg
      cases e with
      | inl item =>
        rw [fillSlots, hg] at h
        obtain ⟨hmap, hw⟩ := fillSlots_typed ts hs1 h
        refine ⟨?_, hw⟩
        rw [hmap]
        simp [sumVal] at hty
        simp [hty]
      | inr item =>
        rw [fillSlots, hg] at h
        obtain ⟨hmap, hw⟩ := fillSlots_typed ts hs1 h
        refine ⟨?_, hw⟩
        rw [hmap]
        simp [sumVal] at hty
        simp [hty]

lemma attemptW1H_typed {lt : List Item × List Item} {c : Bool} {items : List Item}
    {lt' : List Item × List Item}
    (h1 : ∀ i ∈ lt.1, i.itype = ItemType.Weapon1HOrShield)
    (h2 : ∀ i ∈ lt.2, i.itype = ItemType.Weapon1HOrShield)
    (h : attemptW1H lt c = (some items, lt')) :
    items.map Item.itype = [ItemType.Weapon1HOrShield, ItemType.Weapon1HOrShield] := by
  cases c with
  | true =>
    rcases hg1 : getItem lt true with _ | ⟨e1, lt1⟩
    · simp [attemptW1H, hg1] at h
    · obtain ⟨ht1, hl1, hl2⟩ := getItem_typed h1 h2 hg1
      rcases hg2 : getItem lt1 true with _ | ⟨e2, lt2⟩
      · simp [attemptW1H, hg1, hg2] at h
      · obtain ⟨ht2, -, -⟩ := getItem_typed hl1 hl2 hg2
        simp only [attemptW1H, hg1, hg2, Prod.mk.injEq, Option.some.injEq] at h
        rw [← h.1]
        simp [ht1, ht2]
  | false =>
    rcases hg1 : getItem lt false with _ | ⟨e1, lt1⟩
    · simp [attemptW1H, hg1] at h
    · obtain ⟨ht1, hl1, hl2⟩ := getItem_typed h1 h2 hg1
      cases e1 with
      | inl item =>
        rcases hg2 : getItem lt1 true with _ | ⟨e2, lt2⟩
        · simp [attemptW1H, hg1, hg2] at h
        · obtain ⟨ht2, -, -⟩ := getItem_typed hl1 hl2 hg2
          simp only [attemptW1H, hg1, hg2, Prod.mk.injEq, Option.some.injEq] at h
          rw [← h.1]
          simp only [sumVal] at ht1
          simp [ht1, ht2]
      | inr item =>
        rcases hg2 : getItem lt1 false with _ | ⟨e2, lt2⟩
        · simp [attemptW1H, hg1, hg2] at h
        · cases e2 with
          | inl item2 =>
            obtain ⟨ht2, -, -⟩ := getItem_typed hl1 hl2 hg2
            simp only [attemptW1H, hg1, hg2, Prod.mk.injEq, Option.some.injEq] at h
            rw [← h.1]
            simp only [sumVal] at ht1 ht2
            simp [ht1, ht2]
          | inr _ => simp [attemptW1H, hg1, hg2] at h

lemma getWeaponItems_typed {s : ChaosRecipeSet} {c : Bool} {r : List Item ⊕ Item}
    {s' : ChaosRecipeSet} (hs : WellTyped s)
    (h : getWeaponItems s c = (some r, s')) :
    (∃ items, r = Sum.inl items ∧
        items.map Item.itype = [ItemType.Weapon1HOrShield, ItemType.Weapon1HOrShield])
  ∨ (∃ i, r = Sum.inr i ∧ i.itype = ItemType.Weapon2H) := by
  rcases hA : attemptW1H (s ItemType.Weapon1HOrShield) c with ⟨o, lt⟩
  have hW2 : (Function.update s ItemType.Weapon1HOrShield lt) ItemType.Weapon2H
      = s ItemType.Weapon2H := Function.update_noteq (by decide) _ _
  cases o with
  | some items =>
    simp only [getWeaponItems, hA, Prod.mk.injEq, Option.some.injEq] at h
    exact Or.inl ⟨items, h.1.symm, attemptW1H_typed (hs _).1 (hs _).2 hA⟩
  | none =>
    simp only [getWeaponItems, hA] at h
    rw [hW2] at h
    rcases hg : getItem (s ItemType.Weapon2H) c with _ | ⟨e, lt2⟩
    · rw [hg] at h; simp at h
    · rw [hg] at h
      obtain ⟨hty, -, -⟩ := getItem_typed (hs ItemType.Weapon2H).1 (hs ItemType.Weapon2H).2 hg
      cases c with
      | true =>
        simp only [Prod.mk.injEq, Option.some.injEq] at h
        exact Or.inr ⟨sumVal e, h.1.symm, hty⟩
      | false =>
        cases e with
        | inl item =>
          simp only [Prod.mk.injEq, Option.some.injEq] at h
          exact Or.inr ⟨item, h.1.symm, hty⟩
        | inr _ => simp at h

/-! ## Refinement of the slot pass -/

lemma fillSlots_spec : ∀ (ts : List ItemType) (s : ChaosRecipeSet) (c : Bool)
    (acc : List Item),
    (∀ items flag s1, specSlotPass ts s c = some (items, flag, s1) →
        fillSlots ts s c acc = (some (acc ++ items, flag), s1))
  ∧ (specSlotPass ts s c = none → (fillSlots ts s c acc).1 = none)
  | [], s, c, acc => by
    constructor
    · intro items flag s1 h
      simp only [specSlotPass, Option.some.injEq, Prod.mk.injEq] at h
      obtain ⟨h1, h2, h3⟩ := h
      subst h1; subst h2; subst h3
      simp [fillSlots]
    · intro h
      simp [specSlotPass] at h
  | t :: ts, s, c, acc => by
    have hget : getItem (s t) c
        = (specSelect (s t).1 (s t).2 c).map fun q =>
            ((if q.2.1 then Sum.inl q.1 else Sum.inr q.1), q.2.2) :=
      getItem_eq_specSelect (s t).1 (s t).2 c
    rcases hsel : specSelect (s t).1 (s t).2 c with _ | ⟨i, fromLow, low2, high2⟩
    · rw [hsel] at hget
      constructor
      · intro items flag s1 h
        simp [specSlotPass, hsel] at h
      · intro _
        simp [fillSlots, getItemByType, hget]
    · rw [hsel] at hget
      have hbt : getItemByType s t c
          = some ((if fromLow then Sum.inl i else Sum.inr i),
              Function.update s t (low2, high2)) := by
        simp [getItemByType, hget]
      cases fromLow with
      | true =>
        simp only [if_true] at hbt
        constructor
        · intro items flag s1 h
          simp only [specSlotPass, hsel, Option.map_eq_some'] at h
          obtain ⟨⟨items', flag', s1'⟩, hrec, hq⟩ := h
          simp only [Prod.mk.injEq] at hq
          obtain ⟨hq1, hq2, hq3⟩ := hq
          subst hq1; subst hq2; subst hq3
          have := (fillSlots_spec ts (Function.update s t (low2, high2)) (c || true)
              (acc ++ [i])).1 items' flag' s1' (by simpa using hrec)
          rw [fillSlots, hbt]
          simpa [List.append_assoc] using this
        · intro h
          simp only [specSlotPass, hsel, Option.map_eq_none'] at h
          have := (fillSlots_spec ts (Function.update s t (low2, high2)) (c || true)
              (acc ++ [i])).2 (by simpa using h)
          rw [fillSlots, hbt]
          simpa using this
      | false =>
        simp only [if_false] at hbt
        constructor
        · intro items flag s1 h
          simp only [specSlotPass, hsel, Option.map_eq_some'] at h
          obtain ⟨⟨items', flag', s1'⟩, hrec, hq⟩ := h
          simp only [Prod.mk.injEq] at hq
          obtain ⟨hq1, hq2, hq3⟩ := hq
          subst hq1; subst hq2; subst hq3
          have := (fillSlots_spec ts (Function.update s t (low2, high2)) (c || false)
              (acc ++ [i])).1 items' flag' s1' (by simpa using hrec)
          rw [fillSlots, hbt]
          simpa [List.append_assoc] using this
        · intro h
          simp only [specSlotPass, hsel, Option.map_eq_none'] at h
          have := (fillSlots_spec ts (Function.update s t (low2, high2)) (c || false)
              (acc ++ [i])).2 (by simpa using h)
          rw [fillSlots, hbt]
          simpa using this

/-! ## Item-count accounting (no duplication) -/

lemma getItem_count {lt : List Item × List Item} {c : Bool} {e : Item ⊕ Item}
    {lt' : List Item × List Item} (h : getItem lt c = some (e, lt')) (x : Item) :
    lt'.1.count x + lt'.2.count x + (if sumVal e = x then 1 else 0)
      = lt.1.count x + lt.2.count x := by
  rcases getItem_cases h with ⟨i, tl, he, hl, hlt⟩ | ⟨i, tl, he, hl, hlt⟩ <;>
    subst he <;> subst hlt <;> rw [hl] <;>
    simp only [sumVal, List.count_cons, beq_iff_eq] <;> omega

lemma countInv_update (s : ChaosRecipeSet) (t : ItemType)
    (lt : List Item × List Item) (x : Item) :
    countInv x (Function.update s t lt) + ((s t).1.count x + (s t).2.count x)
      = countInv x s + (lt.1.count x + lt.2.count x) := by
  cases t <;>
    simp [countInv, allItems, typesList, Function.update_apply,
      List.count_append] <;>
    omega

lemma getItemByType_count {s : ChaosRecipeSet} {t : ItemType} {c : Bool}
    {e : Item ⊕ Item} {s' : ChaosRecipeSet}
    (h : getItemByType s t c = some (e, s')) (x : Item) :
    countInv x s' + (if sumVal e = x then 1 else 0) = countInv x s := by
  rcases hg : getItem (s t) c with _ | ⟨e0, lt'⟩
  · simp [getItemByType, hg] at h
  · simp only [getItemByType, hg, Option.map_some', Option.some.injEq,
      Prod.mk.injEq] at h
    obtain ⟨he, hs'⟩ := h
    subst he; subst hs'
    have h1 := getItem_count hg x
    have h2 := countInv_update s t lt' x
    omega

lemma fillSlots_count : ∀ (ts : List ItemType) {s : ChaosRecipeSet} {c : Bool}
    {acc vec : List Item} {c' : Bool} {s' : ChaosRecipeSet},
    fillSlots ts s c acc = (some (vec, c'), s') →
    ∀ x, vec.count x + countInv x s' = acc.count x + countInv x s
  | [], s, c, acc, vec, c', s', h, x => by
    simp only [fillSlots, Prod.mk.injEq, Option.some.injEq] at h
    obtain ⟨⟨h1, -⟩, h3⟩ := h
    subst h1; subst h3
    rfl
  | t :: ts, s, c, acc, vec, c', s', h, x => by
    rcases hg : getItemByType s t c with _ | ⟨e, s1⟩
    · rw [fillSlots, hg] at h; simp at h
    · have hcnt := getItemByType_count hg x
      cases e with
      | inl item =>
        rw [fillSlots, hg] at h
        have hrec := fillSlots_count ts h x
        simp only [List.count_append, List.count_singleton', sumVal] at hrec hcnt
        omega
      | inr item =>
        rw [fillSlots, hg] at h
        have hrec := fillSlots_count ts h x
        simp only [List.count_append, List.count_singleton', sumVal] at hrec hcnt
        omega

lemma attemptW1H_count {lt : List Item × List Item} {c : Bool}
    {o : Option (List Item)} {lt' : List Item × List Item}
    (h : attemptW1H lt c = (o, lt')) (x : Item) :
    (o.getD []).count x + lt'.1.count x + lt'.2.count x
      ≤ lt.1.count x + lt.2.count x := by
  cases c with
  | true =>
    rcases hg1 : getItem lt true with _ | ⟨e1, lt1⟩
    · simp only [attemptW1H, hg1, Prod.mk.injEq] at h
      obtain ⟨h1, h2⟩ := h
      subst h1; subst h2
      simp
    · have hc1 := getItem_count hg1 x
      rcases hg2 : getItem lt1 true with _ | ⟨e2, lt2⟩
      · simp only [attemptW1H, hg1, hg2, Prod.mk.injEq] at h
        obtain ⟨h1, h2⟩ := h
        subst h1; subst h2
        simp only [Option.getD_none, List.count_nil]
        omega
      · have hc2 := getItem_count hg2 x
        simp only [attemptW1H, hg1, hg2, Prod.mk.injEq] at h
        obtain ⟨h1, h2⟩ := h
        subst h1; subst h2
        simp only [Option.getD_some, List.count_cons, List.count_nil, beq_iff_eq]
        omega
  | false =>
    rcases hg1 : getItem lt false with _ | ⟨e1, lt1⟩
    · simp only [attemptW1H, hg1, Prod.mk.injEq] at h
      obtain ⟨h1, h2⟩ := h
      subst h1; subst h2
      simp
    · have hc1 := getItem_count hg1 x
      cases e1 with
      | inl item =>
        rcases hg2 : getItem lt1 true with _ | ⟨e2, lt2⟩
        · simp only [attemptW1H, hg1, hg2, Prod.mk.injEq] at h
          obtain ⟨h1, h2⟩ := h
          subst h1; subst h2
          simp only [Option.getD_none, List.count_nil, sumVal] at hc1 ⊢
          omega
        · have hc2 := getItem_count hg2 x
          simp only [attemptW1H, hg1, hg2, Prod.mk.injEq] at h
          obtain ⟨h1, h2⟩ := h
          subst h1; subst h2
          simp only [Option.getD_some, List.count_cons, List.count_nil, sumVal, beq_iff_eq] at hc1 hc2 ⊢
          omega
      | inr item =>
        rcases hg2 : getItem lt1 false with _ | ⟨e2, lt2⟩
        · simp only [attemptW1H, hg1, hg2, Prod.mk.injEq] at h
          obtain ⟨h1, h2⟩ := h
          subst h1; subst h2
          simp only [Option.getD_none, List.count_nil, sumVal] at hc1 ⊢
          omega
        · have hc2 := getItem_count hg2 x
          cases e2 with
          | inl item2 =>
            simp only [attemptW1H, hg1, hg2, Prod.mk.injEq] at h
            obtain ⟨h1, h2⟩ := h
            subst h1; subst h2
            simp only [Option.getD_some, List.count_cons, List.count_nil, sumVal, beq_iff_eq] at hc1 hc2 ⊢
            omega
          | inr item2 =>
            simp only [attemptW1H, hg1, hg2, Prod.mk.injEq] at h
            obtain ⟨h1, h2⟩ := h
            subst h1; subst h2
            simp only [Option.getD_none, List.count_nil, sumVal] at hc1 hc2 ⊢
            omega

lemma getWeaponItems_count {s : ChaosRecipeSet} {c : Bool}
    {r : Option (List Item ⊕ Item)} {s' : ChaosRecipeSet}
    (h : getWeaponItems s c = (r, s')) (x : Item) :
    weaponCount x r + countInv x s' ≤ countInv x s := by
  rcases hA : attemptW1H (s ItemType.Weapon1HOrShield) c with ⟨o, lt⟩
  have hAc := attemptW1H_count hA x
  have hupd := countInv_update s ItemType.Weapon1HOrShield lt x
  cases o with
  | some items =>
    simp only [getWeaponItems, hA, Prod.mk.injEq] at h
    obtain ⟨h1, h2⟩ := h
    subst h1; subst h2
    simp only [Option.getD_some] at hAc
    simp only [weaponCount]
    omega
  | none =>
    simp only [getWeaponItems, hA] at h
    simp only [Option.getD_none, List.count_nil] at hAc
    have hW2 : (Function.update s ItemType.Weapon1HOrShield lt) ItemType.Weapon2H
        = s ItemType.Weapon2H := Function.update_noteq (by decide) _ _
    rw [hW2] at h
    rcases hg : getItem (s ItemType.Weapon2H) c with _ | ⟨e, lt2⟩
    · rw [hg] at h
      simp only [Prod.mk.injEq] at h
      obtain ⟨h1, h2⟩ := h
      subst h1; subst h2
      simp only [weaponCount]
      omega
    · rw [hg] at h
      have hc2 := getItem_count hg x
      have hupd2 := countInv_update (Function.update s ItemType.Weapon1HOrShield lt)
        ItemType.Weapon2H lt2 x
      rw [hW2] at hupd2
      cases c with
      | true =>
        simp only [Prod.mk.injEq] at h
        obtain ⟨h1, h2⟩ := h
        subst h1; subst h2
        simp only [weaponCount]
        omega
      | false =>
        cases e with
        | inl item =>
          simp only [Prod.mk.injEq] at h
          obtain ⟨h1, h2⟩ := h
          subst h1; subst h2
          simp only [sumVal] at hc2
          simp only [weaponCount]
          omega
        | inr item =>
          simp only [Prod.mk.injEq] at h
          obtain ⟨h1, h2⟩ := h
          subst h1; subst h2
          simp only [weaponCount]
          omega

lemma genNext_count {s : ChaosRecipeSet} {b : List Item} {s' : ChaosRecipeSet}
    (h : genNext s = (some b, s')) (x : Item) :
    b.count x + countInv x s' ≤ countInv x s := by
  rcases hf : fillSlots recipeWithoutWeapons s false [] with ⟨o1, s1⟩
  cases o1 with
  | none => rw [genNext, hf] at h; simp at h
  | some p =>
    obtain ⟨vec, c⟩ := p
    have hfc := fillSlots_count recipeWithoutWeapons hf x
    simp only [List.count_nil] at hfc
    simp only [genNext, hf] at h
    rcases hw : getWeaponItems s1 c with ⟨o2, s2⟩
    have hwc := getWeaponItems_count hw x
    rw [hw] at h
    cases o2 with
    | none => simp at h
    | some r =>
      cases r with
      | inl items =>
        simp only [Prod.mk.injEq, Option.some.injEq] at h
        obtain ⟨h1, h2⟩ := h
        subst h1; subst h2
        simp only [weaponCount] at hwc
        simp only [List.count_append]
        omega
      | inr item =>
        simp only [Prod.mk.injEq, Option.some.injEq] at h
        obtain ⟨h1, h2⟩ := h
        subst h1; subst h2
        simp only [weaponCount] at hwc
        simp only [List.count_append, List.count_singleton']
        omega

lemma genBundles_count : ∀ (n : Nat) (s : ChaosRecipeSet) (x : Item),
    ((genBundles n s).flatten).count x ≤ countInv x s
  | 0, s, x => by simp [genBundles]
  | n + 1, s, x => by
    rcases hn : genNext s with ⟨o, s1⟩
    cases o with
    | none => simp [genBundles, hn]
    | some b =>
      have h1 := genNext_count hn x
      have h2 := genBundles_count n s1 x
      simp only [genBundles, hn, List.flatten_cons, List.count_append]
      omega

/-! ## Cursor advance (suffix) lemmas -/

lemma isSuffixPair_refl (lt : List Item × List Item) : IsSuffixPair lt lt :=
  ⟨⟨[], rfl⟩, ⟨[], rfl⟩⟩

lemma isSuffixPair_trans {a b c : List Item × List Item}
    (h1 : IsSuffixPair a b) (h2 : IsSuffixPair b c) : IsSuffixPair a c := by
  obtain ⟨⟨p1, hp1⟩, ⟨p2, hp2⟩⟩ := h1
  obtain ⟨⟨q1, hq1⟩, ⟨q2, hq2⟩⟩ := h2
  exact ⟨⟨q1 ++ p1, by rw [hq1, hp1, List.append_assoc]⟩,
    ⟨q2 ++ p2, by rw [hq2, hp2, List.append_assoc]⟩⟩

lemma getItem_sfx {lt : List Item × List Item} {c : Bool} {e : Item ⊕ Item}
    {lt' : List Item × List Item} (h : getItem lt c = some (e, lt')) :
    IsSuffixPair lt' lt := by
  rcases getItem_cases h with ⟨i, tl, -, hl, hlt⟩ | ⟨i, tl, -, hl, hlt⟩ <;> subst hlt
  · exact ⟨⟨[i], by simpa using hl⟩, ⟨[], rfl⟩⟩
  · exact ⟨⟨[], rfl⟩, ⟨[i], by simpa using hl⟩⟩

lemma invAdvance_refl (s : ChaosRecipeSet) : InvAdvance s s :=
  fun _ => isSuffixPair_refl _

lemma invAdvance_trans {s1 s2 s3 : ChaosRecipeSet}
    (h1 : InvAdvance s1 s2) (h2 : InvAdvance s2 s3) : InvAdvance s1 s3 :=
  fun t => isSuffixPair_trans (h1 t) (h2 t)

lemma invAdvance_update {s : ChaosRecipeSet} {t : ItemType}
    {lt' : List Item × List Item} (h : IsSuffixPair lt' (s t)) :
    InvAdvance (Function.update s t lt') s := by
  intro t'
  by_cases ht : t' = t
  · subst ht; rw [Function.update_same]; exact h
  · rw [Function.update_noteq ht]; exact isSuffixPair_refl _

lemma getItemByType_sfx {s : ChaosRecipeSet} {t : ItemType} {c : Bool}
    {e : Item ⊕ Item} {s' : ChaosRecipeSet}
    (h : getItemByType s t c = some (e, s')) : InvAdvance s' s := by
  rcases hg : getItem (s t) c with _ | ⟨e0, lt'⟩
  · simp [getItemByType, hg] at h
  · simp only [getItemByType, hg, Option.map_some', Option.some.injEq,
      Prod.mk.injEq] at h
    obtain ⟨-, hs'⟩ := h
    subst hs'
    exact invAdvance_update (getItem_sfx hg)

lemma fillSlots_sfx : ∀ (ts : List ItemType) (s : ChaosRecipeSet) (c : Bool)
    (acc : List Item), InvAdvance (fillSlots ts s c acc).2 s
  | [], s, c, acc => invAdvance_refl s
  | t :: ts, s, c, acc => by
    rcases hg : getItemByType s t c with _ | ⟨e, s1⟩
    · rw [fillSlots, hg]; exact invAdvance_refl s
    · have h1 := getItemByType_sfx hg
      cases e with
      | inl item =>
        rw [fillSlots, hg]
        exact invAdvance_trans (fillSlots_sfx ts s1 true (acc ++ [item])) h1
      | inr item =>
        rw [fillSlots, hg]
        exact invAdvance_trans (fillSlots_sfx ts s1 c (acc ++ [item])) h1

lemma attemptW1H_sfx (lt : List Item × List Item) (c : Bool) :
    IsSuffixPair (attemptW1H lt c).2 lt := by
  cases c with
  | true =>
    rcases hg1 : getItem lt true with _ | ⟨e1, lt1⟩
    · simp only [attemptW1H, hg1]; exact isSuffixPair_refl lt
    · have s1 := getItem_sfx hg1
      rcases hg2 : getItem lt1 true with _ | ⟨e2, lt2⟩
      · simp only [attemptW1H, hg1, hg2]; exact s1
      · simp only [attemptW1H, hg1, hg2]
        exact isSuffixPair_trans (getItem_sfx hg2) s1
  | false =>
    rcases hg1 : getItem lt false with _ | ⟨e1, lt1⟩
    · simp only [attemptW1H, hg1]; exact isSuffixPair_refl lt
    · have s1 := getItem_sfx hg1
      cases e1 with
      | inl item =>
        rcases hg2 : getItem lt1 true with _ | ⟨e2, lt2⟩
        · simp only [attemptW1H, hg1, hg2]; exact s1
        · simp only [attemptW1H, hg1, hg2]
          exact isSuffixPair_trans (getItem_sfx hg2) s1
      | inr item =>
        rcases hg2 : getItem lt1 false with _ | ⟨e2, lt2⟩
        · simp only [attemptW1H, hg1, hg2]; exact s1
        · cases e2 with
          | inl item2 =>
            simp only [attemptW1H, hg1, hg2]
            exact isSuffixPair_trans (getItem_sfx hg2) s1
          | inr item2 =>
            simp only [attemptW1H, hg1, hg2]
            exact isSuffixPair_trans (getItem_sfx hg2) s1

lemma getWeaponItems_sfx (s : ChaosRecipeSet) (c : Bool) :
    InvAdvance (getWeaponItems s c).2 s := by
  rcases hA : attemptW1H (s ItemType.Weapon1HOrShield) c with ⟨o, lt⟩
  have hlt : IsSuffixPair lt (s ItemType.Weapon1HOrShield) := by
    have := attemptW1H_sfx (s ItemType.Weapon1HOrShield) c
    rw [hA] at this
    exact this
  have hadv : InvAdvance (Function.update s ItemType.Weapon1HOrShield lt) s :=
    invAdvance_update hlt
  cases o with
  | some items => simp only [getWeaponItems, hA]; exact hadv
  | none =>
    simp only [getWeaponItems, hA]
    rcases hg : getItem
        ((Function.update s ItemType.Weapon1HOrShield lt) ItemType.Weapon2H) c
      with _ | ⟨e, lt2⟩
    · exact hadv
    · have h2 : InvAdvance
          (Function.update (Function.update s ItemType.Weapon1HOrShield lt)
            ItemType.Weapon2H lt2)
          (Function.update s ItemType.Weapon1HOrShield lt) :=
        invAdvance_update (getItem_sfx hg)
      cases c with
      | true => exact invAdvance_trans h2 hadv
      | false =>
        cases e with
        | inl item => exact invAdvance_trans h2 hadv
        | inr item => exact invAdvance_trans h2 hadv

lemma genNext_sfx (s : ChaosRecipeSet) : InvAdvance (genNext s).2 s := by
  rcases hf : fillSlots recipeWithoutWeapons s false [] with ⟨o1, s1⟩
  have h1 : InvAdvance s1 s := by
    have := fillSlots_sfx recipeWithoutWeapons s false []
    rw [hf] at this
    exact this
  cases o1 with
  | none => simp only [genNext, hf]; exact h1
  | some p =>
    obtain ⟨vec, c⟩ := p
    simp only [genNext, hf]
    rcases hw : getWeaponItems s1 c with ⟨o2, s2⟩
    have h2 : InvAdvance s2 s1 := by
      have := getWeaponItems_sfx s1 c
      rw [hw] at this
      exact this
    cases o2 with
    | none => exact invAdvance_trans h2 h1
    | some r =>
      cases r with
      | inl items => exact invAdvance_trans h2 h1
      | inr item => exact invAdvance_trans h2 h1

/-! ## Classifier characterization -/

lemma classify_go : ∀ (items : List Item) (m : ChaosRecipeSet) (t : ItemType),
    (items.foldl classifyStep m) t
      = ((m t).1 ++ items.filter (lowFilter t), (m t).2 ++ items.filter (highFilter t))
  | [], m, t => by simp
  | i :: rest, m, t => by
    rw [List.foldl_cons, classify_go rest (classifyStep m i) t]
    by_cases hskip : i.ilvl < 60 ∨ i.frame_type ≠ 2
    · have hm : classifyStep m i = m := by simp [classifyStep, hskip]
      have hlf : lowFilter t i = false := by
        simp only [lowFilter, decide_eq_false_iff_not]
        rcases hskip with h | h
        · intro hc; omega
        · intro hc; exact h hc.2.1
      have hhf : highFilter t i = false := by
        simp only [highFilter, decide_eq_false_iff_not]
        rcases hskip with h | h
        · intro hc; omega
        · intro hc; exact h hc.2.1
      rw [hm]
      simp [List.filter_cons, hlf, hhf]
    · push_neg at hskip
      obtain ⟨hlvl, hframe⟩ := hskip
      by_cases hlow : i.ilvl < 75
      · have hm : classifyStep m i
            = Function.update m i.itype ((m i.itype).1 ++ [i], (m i.itype).2) := by
          simp [classifyStep, hframe, hlow, Nat.not_lt.mpr hlvl]
        have hhf : highFilter t i = false := by
          simp only [highFilter, decide_eq_false_iff_not]
          intro hc; omega
        by_cases ht : i.itype = t
        · subst ht
          have hlf : lowFilter i.itype i = true := by
            simp [lowFilter, hlvl, hframe, hlow]
          rw [hm, Function.update_apply, if_pos rfl]
          simp [List.filter_cons, hlf, hhf]
        · have hlf : lowFilter t i = false := by
            simp only [lowFilter, decide_eq_false_iff_not]
            intro hc; exact ht hc.2.2.2
          rw [hm, Function.update_apply, if_neg (fun h => ht h.symm)]
          simp [List.filter_cons, hlf, hhf]
      · have hm : classifyStep m i
            = Function.update m i.itype ((m i.itype).1, (m i.itype).2 ++ [i]) := by
          simp [classifyStep, hframe, hlow, Nat.not_lt.mpr hlvl]
        have hlf : lowFilter t i = false := by
          simp only [lowFilter, decide_eq_false_iff_not]
          intro hc; omega
        by_cases ht : i.itype = t
        · subst ht
          have hhf : highFilter i.itype i = true := by
            simp [highFilter, hlvl, hframe, Nat.not_lt.mp hlow]
          rw [hm, Function.update_apply, if_pos rfl]
          simp [List.filter_cons, hlf, hhf]
        · have hhf : highFilter t i = false := by
            simp only [highFilter, decide_eq_false_iff_not]
            intro hc; exact ht hc.2.2.2
          rw [hm, Function.update_apply, if_neg (fun h => ht h.symm)]
          simp [List.filter_cons, hlf, hhf]

/-! ## Refresh-coalescing invariant -/

lemma sysStep_inv {s : FetchSystem}
    (h : s.initiated ≤ s.completed + (if s.fetching then 1 else 0)) (ev : SysEvent) :
    (sysStep s ev).initiated
      ≤ (sysStep s ev).completed + (if (sysStep s ev).fetching then 1 else 0) := by
  cases ev <;>
    simp only [sysStep, trySendRefresh] <;>
    split_ifs at h ⊢ <;>
    simp_all

lemma sysRun_inv : ∀ (events : List SysEvent) (s : FetchSystem),
    s.initiated ≤ s.completed + (if s.fetching then 1 else 0) →
    (sysRun events s).initiated
      ≤ (sysRun events s).completed + (if (sysRun events s).fetching then 1 else 0)
  | [], _, h => h
  | ev :: evs, s, h => sysRun_inv evs (sysStep s ev) (sysStep_inv h ev)

/-! # Claims -/

/-- C1, counterexample: the claim "every yielded bundle contains exactly
9 items" is false — on `exInv1` the generator yields a bundle whose
weapon portion is a `Weapon1HOrShield` pair, for 8 + 2 = 10 items. -/
theorem c1_nine_item_counterexample :
    ((genNext exInv1).1).map List.length = some 10 := by decide

/-- C1 (amended): every yielded bundle contains exactly 9 or 10 items:
the eight non-weapon slots in the fixed order Amulet, Belt, Body,
Boots, Gloves, Helmet, Ring, Ring, followed by a weapon portion that is
either two `Weapon1HOrShield` items (10 items in total) or one
`Weapon2H` item (9 items in total), never both and never neither. -/
theorem c1_bundle_shape_amended (s : ChaosRecipeSet) (b : List Item)
    (hw : WellTyped s) (h : (genNext s).1 = some b) :
    (b.map Item.itype
        = recipeWithoutWeapons
            ++ [ItemType.Weapon1HOrShield, ItemType.Weapon1HOrShield]
      ∧ b.length = 10)
  ∨ (b.map Item.itype = recipeWithoutWeapons ++ [ItemType.Weapon2H]
      ∧ b.length = 9) := by
  rcases hf : fillSlots recipeWithoutWeapons s false [] with ⟨o1, s1⟩
  cases o1 with
  | none => rw [genNext, hf] at h; simp at h
  | some p =>
    obtain ⟨vec, c⟩ := p
    obtain ⟨hmap, hw1⟩ := fillSlots_typed recipeWithoutWeapons hw hf
    simp only [List.map_nil, List.nil_append] at hmap
    simp only [genNext, hf] at h
    rcases hwp : getWeaponItems s1 c with ⟨o2, s2⟩
    rw [hwp] at h
    cases o2 with
    | none => simp at h
    | some r =>
      rcases getWeaponItems_typed hw1 hwp with ⟨items, hr, hity⟩ | ⟨i, hr, hity⟩
      · subst hr
        simp only [Option.some.injEq] at h
        subst h
        left
        have h8 : vec.length = 8 := by
          have := congrArg List.length hmap
          simpa [recipeWithoutWeapons] using this
        have h2 : items.length = 2 := by
          have := congrArg List.length hity
          simpa using this
        constructor
        · rw [List.map_append, hmap, hity]
        · simp [h8, h2]
      · subst hr
        simp only [Option.some.injEq] at h
        subst h
        right
        have h8 : vec.length = 8 := by
          have := congrArg List.length hmap
          simpa [recipeWithoutWeapons] using this
        constructor
        · rw [List.map_append, hmap]
          simp [hity]
        · simp [h8]

/-- C1 witness: the amended shape theorem applied to the concrete
inventory `exInv1`, whose bundle is a 10-item one-hand-pair bundle. -/
theorem c1_bundle_shape_witness :
    WellTyped exInv1 ∧ (genNext exInv1).1 = some exBundle1
  ∧ ((exBundle1.map Item.itype
        = recipeWithoutWeapons
            ++ [ItemType.Weapon1HOrShield, ItemType.Weapon1HOrShield]
      ∧ exBundle1.length = 10)
    ∨ (exBundle1.map Item.itype = recipeWithoutWeapons ++ [ItemType.Weapon2H]
      ∧ exBundle1.length = 9)) :=
  ⟨by decide, by decide,
    c1_bundle_shape_amended exInv1 exBundle1 (by decide) (by decide)⟩

/-- C2, counterexample: with the flag `false` and the first pick coming
from the high-tier list (low-tier 1H list empty, high-tier `[exH1,
exH2]`), the claim says a second pick is taken and the low-tier item is
pushed before the high-tier item in the bundle vector; in fact the
second pick is taken with prefer-low-tier but is required to be
low-tier, which cannot happen (the low list is empty), so no pair is
produced at all — yet both high-tier items have been consumed. -/
theorem c2_weapon_pair_counterexample :
    (getWeaponItems sC2 false).1 = none
  ∧ (getWeaponItems sC2 false).2 ItemType.Weapon1HOrShield = ([], []) := by
  decide

/-- C2 (amended): with the flag `false`, the one-hand stage takes one
item prefer-low-fallback-high; if that pick was low-tier, the second
pick prefers high tier (falling back to the remaining low-tier items)
and the pair is emitted second pick first; if the first pick was
high-tier — possible only when the low-tier list is empty — a second
pick with prefer-low-tier is attempted and accepted only if low-tier,
which always fails, so the stage consumes up to two high-tier items,
yields no pair, and generation falls through to the `Weapon2H` pool.
Stated as: the source translation of the stage coincides with the
spec-side rendering `specW1HFalse`. -/
theorem c2_weapon_pair_amended (cl rl : List Item) :
    attemptW1H (cl, rl) false = specW1HFalse cl rl := by
  cases cl with
  | nil =>
    cases rl with
    | nil => rfl
    | cons r0 rs => cases rs <;> rfl
  | cons c0 cs =>
    cases rl with
    | nil => cases cs <;> rfl
    | cons r0 rs => rfl

/-- C3, counterexample: the claim says that when the one-hand selection
fails with flag `false`, a high-tier `Weapon2H` item is accepted when
no low-tier one remains; on `sC3` (no 1H items, one high-tier 2H item)
the weapon stage nevertheless fails. -/
theorem c3_twoh_fallback_counterexample :
    (getWeaponItems sC3 false).1 = none
  ∧ (sC3 ItemType.Weapon2H).2 = [exW2h] := by decide

/-- C3 (amended): when the flag is `false` and the one-hand stage
fails, the generator draws one `Weapon2H` item prefer-low-fallback-high
but accepts it only if it came from the low-tier list: the weapon
result is the head of the 2H low-tier list if non-empty; otherwise the
bundle fails (and when a high-tier 2H item was drawn it is consumed and
discarded: the 2H high-tier cursor advances past it). -/
theorem c3_twoh_fallback_amended (s : ChaosRecipeSet)
    (h : (attemptW1H (s ItemType.Weapon1HOrShield) false).1 = none) :
    (getWeaponItems s false).1 = ((s ItemType.Weapon2H).1.head?).map Sum.inr
  ∧ ((s ItemType.Weapon2H).1 = [] →
      (getWeaponItems s false).2 ItemType.Weapon2H
        = ([], (s ItemType.Weapon2H).2.tail)) := by
  rcases hA : attemptW1H (s ItemType.Weapon1HOrShield) false with ⟨o, lt⟩
  rw [hA] at h
  cases o with
  | some items => simp at h
  | none =>
    have hW2 : (Function.update s ItemType.Weapon1HOrShield lt) ItemType.Weapon2H
        = s ItemType.Weapon2H := Function.update_noteq (by decide) _ _
    rcases hl2 : s ItemType.Weapon2H with ⟨l2, h2⟩
    cases l2 with
    | cons i tl =>
      constructor
      · simp [getWeaponItems, hA, hW2, hl2, getItem]
      · intro hc
        simp at hc
    | nil =>
      cases h2 with
      | nil =>
        constructor
        · simp [getWeaponItems, hA, hW2, hl2, getItem]
        · intro _
          simp [getWeaponItems, hA, hW2, hl2, getItem, Function.update_same]
      | cons j hs =>
        constructor
        · simp [getWeaponItems, hA, hW2, hl2, getItem]
        · intro _
          simp [getWeaponItems, hA, hW2, hl2, getItem, Function.update_same]

/-- C3 witness: the amended fallback theorem applied to `sC3`, where
the one-hand stage fails, the 2H low-tier list is empty, and the drawn
high-tier 2H item is consumed and discarded. -/
theorem c3_twoh_fallback_witness :
    (getWeaponItems sC3 false).1 = ((sC3 ItemType.Weapon2H).1.head?).map Sum.inr
  ∧ (getWeaponItems sC3 false).2 ItemType.Weapon2H
      = ([], (sC3 ItemType.Weapon2H).2.tail) :=
  ⟨(c3_twoh_fallback_amended sC3 (by decide)).1,
    (c3_twoh_fallback_amended sC3 (by decide)).2 (by decide)⟩

/-- C4: the eight non-weapon slots are filled in the fixed order with a
preference flag starting `false`; the flag becomes `true` exactly when
the item actually taken came from the low-tier list and stays `true`
afterwards; a slot that cannot be filled aborts the bundle, and no
partial bundle is yielded.  Stated as: the source slot pass coincides
with the spec-side rendering `specSlotPass` (whose per-slot rule is
`specSelect` and whose flag update is `flag || fromLow`), and a failing
pass makes `genNext` yield nothing. -/
theorem c4_slot_pass_refines (s : ChaosRecipeSet) :
    ((fillSlots recipeWithoutWeapons s false []).1
        = (specSlotPass recipeWithoutWeapons s false).map fun p => (p.1, p.2.1))
  ∧ (specSlotPass recipeWithoutWeapons s false = none → (genNext s).1 = none) := by
  constructor
  · rcases hsp : specSlotPass recipeWithoutWeapons s false with _ | ⟨items, flag, s1⟩
    · rw [(fillSlots_spec recipeWithoutWeapons s false []).2 hsp]
      rfl
    · rw [(fillSlots_spec recipeWithoutWeapons s false []).1 items flag s1 hsp]
      simp
  · intro h
    have hnone := (fillSlots_spec recipeWithoutWeapons s false []).2 h
    rcases hf : fillSlots recipeWithoutWeapons s false [] with ⟨o1, s1⟩
    rw [hf] at hnone
    simp only at hnone
    subst hnone
    rw [genNext, hf]

/-- C4 witness: the refinement applied to the empty inventory, where
the very first slot fails and `genNext` yields nothing. -/
theorem c4_slot_pass_witness :
    specSlotPass recipeWithoutWeapons emptyInv false = none
  ∧ (genNext emptyInv).1 = none :=
  ⟨by decide, (c4_slot_pass_refines emptyInv).2 (by decide)⟩

/-- C5: a status request observing a failed fetch result gets the
failure itself as its response, the cached coordinator state is left
completely unchanged, and a subsequent bundle request is served exactly
as it would have been before. -/
theorem c5_error_preserves_cache (st : CoordState) (e : FetchError) :
    handleStatusReq st (some (Except.error e)) = (st, Except.error e)
  ∧ handleBundleReq (handleStatusReq st (some (Except.error e))).1
      = handleBundleReq st
  ∧ handleStatusReq (handleStatusReq st (some (Except.error e))).1 none
      = handleStatusReq st none :=
  ⟨rfl, rfl, rfl⟩

/-- C6: a bundle request pops the queue front when non-empty and
returns an empty bundle paired with the last-known quad-stash flag when
the queue is empty; the response is always `Ok` (never an error), and
the bundle arm never signals the fetch worker. -/
theorem c6_bundle_request (st : CoordState) :
    (∀ b rest, st.chaosQueue = b :: rest →
        handleBundleReq st
          = ({ st with chaosQueue := rest },
             Except.ok (ResponseFromNetwork.chaosRecipe b st.isQuadStash)))
  ∧ (st.chaosQueue = [] →
        handleBundleReq st
          = (st, Except.ok (ResponseFromNetwork.chaosRecipe [] st.isQuadStash)))
  ∧ signalsFetch InternalMessage.requestChaosRecipe = false := by
  refine ⟨?_, ?_, rfl⟩
  · intro b rest hq
    simp [handleBundleReq, hq]
  · intro hq
    simp [handleBundleReq, hq]

/-- C6 witness: the bundle-request theorem applied to a state with one
queued bundle and to a state with an empty queue. -/
theorem c6_bundle_request_witness :
    handleBundleReq stA
      = ({ stA with chaosQueue := [] },
         Except.ok (ResponseFromNetwork.chaosRecipe [exAm] stA.isQuadStash))
  ∧ handleBundleReq stB
      = (stB, Except.ok (ResponseFromNetwork.chaosRecipe [] stB.isQuadStash)) :=
  ⟨(c6_bundle_request stA).1 [exAm] [] rfl, (c6_bundle_request stB).2.1 rfl⟩

/-- C7: a fresh successful fetch result rebuilds the inventory, queue
and count only when it differs from the current inventory; an identical
result is discarded with the whole state (including a partially drained
queue) unchanged; and a bundle request never touches `totalCount` or
the inventory, so the count is a snapshot that is not decremented as
the queue drains. -/
theorem c7_rebuild_policy (st : CoordState) (newMap : ChaosRecipeSet) :
    (newMap ≠ st.map →
        handleStatusReq st (some (Except.ok newMap))
          = ({ st with
                map := newMap
                chaosQueue := collectBundles newMap
                totalCount := (collectBundles newMap).length },
             Except.ok (ResponseFromNetwork.stashStatus newMap
                (collectBundles newMap).length)))
  ∧ (newMap = st.map →
        handleStatusReq st (some (Except.ok newMap))
          = (st, Except.ok (ResponseFromNetwork.stashStatus st.map st.totalCount)))
  ∧ (handleBundleReq st).1.totalCount = st.totalCount
  ∧ (handleBundleReq st).1.map = st.map := by
  refine ⟨?_, ?_, ?_, ?_⟩
  · intro hne
    simp [handleStatusReq, hne]
  · intro heq
    subst heq
    simp [handleStatusReq]
  · cases hq : st.chaosQueue <;> simp [handleBundleReq, hq]
  · cases hq : st.chaosQueue <;> simp [handleBundleReq, hq]

/-- C7 witness: the rebuild-policy theorem applied to the empty-cache
state `stB` with a genuinely different inventory `invAmOnly` (rebuild
case) and with its own inventory (discard case). -/
theorem c7_rebuild_policy_witness :
    handleStatusReq stB (some (Except.ok invAmOnly))
      = ({ stB with
            map := invAmOnly
            chaosQueue := collectBundles invAmOnly
            totalCount := (collectBundles invAmOnly).length },
         Except.ok (ResponseFromNetwork.stashStatus invAmOnly
            (collectBundles invAmOnly).length))
  ∧ handleStatusReq stB (some (Except.ok stB.map))
      = (stB, Except.ok (ResponseFromNetwork.stashStatus stB.map stB.totalCount)) :=
  ⟨(c7_rebuild_policy stB invAmOnly).1 (by decide),
    (c7_rebuild_policy stB stB.map).2.1 rfl⟩

/-- C8, counterexample: the claim says a status request arriving while
a refresh is already in flight has its signal silently dropped; in fact
after `[signal, startFetch]` a refresh is in flight, the one-slot
mailbox is empty again, and a new signal is accepted (queued), not
dropped. -/
theorem c8_coalescing_counterexample :
    (sysRun [SysEvent.signal, SysEvent.startFetch] initSystem).fetching = true
  ∧ (trySendRefresh
      (sysRun [SysEvent.signal, SysEvent.startFetch] initSystem)).2 = true := by
  decide

/-- C8 (amended): refresh signals go through a capacity-1 send-or-drop
mailbox, and a signal is dropped exactly when the mailbox already holds
an undelivered signal (a signal arriving while a refresh is in flight
but the mailbox is empty is queued for one further refresh).  Because
the single worker dequeues one signal per fetch, along every event
interleaving the number of initiated fetches never exceeds the number
of completed fetches plus the at-most-one refresh in flight; in
particular, before any fetch completes at most one outbound fetch has
been initiated, however many status requests were submitted. -/
theorem c8_coalescing_amended (events : List SysEvent) :
    ((sysRun events initSystem).initiated
        ≤ (sysRun events initSystem).completed
          + (if (sysRun events initSystem).fetching then 1 else 0))
  ∧ ((sysRun events initSystem).completed = 0 →
        (sysRun events initSystem).initiated ≤ 1)
  ∧ (∀ s : FetchSystem, (trySendRefresh s).2 = !s.mailbox) := by
  have hinv := sysRun_inv events initSystem (by simp [initSystem])
  refine ⟨hinv, ?_, ?_⟩
  · intro h0
    rw [h0] at hinv
    cases hft : (sysRun events initSystem).fetching <;> rw [hft] at hinv <;>
      simp at hinv <;> omega
  · intro s
    cases hmb : s.mailbox <;> simp [trySendRefresh, hmb]

/-- C8 witness: the amended theorem applied to the trace
`[signal, startFetch, signal]`, in which no fetch has completed and
exactly one fetch has been initiated. -/
theorem c8_coalescing_witness :
    (sysRun [SysEvent.signal, SysEvent.startFetch, SysEvent.signal]
        initSystem).completed = 0
  ∧ (sysRun [SysEvent.signal, SysEvent.startFetch, SysEvent.signal]
        initSystem).initiated ≤ 1 :=
  ⟨by decide,
    (c8_coalescing_amended
        [SysEvent.signal, SysEvent.startFetch, SysEvent.signal]).2.1 (by decide)⟩

/-- C9: the classifier drops every record with item level below 60 or a
rarity tag other than 2 (unique); each surviving record with item level
60..74 is appended, in insertion order, to the low-tier list of its
`ItemType`, and each one with item level at least 75 to the high-tier
list — stated as an exact filter characterization of both buckets.  In
particular the `Weapons/Bows` identifier maps to `Weapon2H`, a level-74
bows item lands in the `Weapon2H` low-tier list, the same item at level
75 in the high-tier list, and at level 59 it is dropped entirely. -/
theorem c9_classifier_partition :
    (∀ (items : List Item) (t : ItemType),
        classify items t
          = (items.filter (lowFilter t), items.filter (highFilter t)))
  ∧ itemTypeFromParts (some "Weapons") (some "Bows")
      = Except.ok ItemType.Weapon2H
  ∧ classify [bows74] ItemType.Weapon2H = ([bows74], [])
  ∧ classify [bows75] ItemType.Weapon2H = ([], [bows75])
  ∧ (∀ t, classify [bows59] t = ([], [])) := by
  refine ⟨?_, rfl, by decide, by decide, by decide⟩
  intro items t
  have := classify_go items emptyInv t
  simpa [classify, emptyInv] using this

/-- C10: over any inventory whose items are pairwise distinct, no item
occurs in more than one bundle of the generated sequence and none is
re-drawn after being consumed (the flattened sequence has no
duplicates); every `genNext` step only ever advances the per-type
remaining-items cursors (each resulting list is a tail segment of the
one before).  Moreover — the claim's caveat — items can be consumed
without being yielded: on `exC10` the one-hand item `exH1` is part of
the inventory, the one-hand stage consumes it while the pair
requirement fails, and the full generated sequence is a single bundle
that does not contain it. -/
theorem c10_no_reuse :
    (∀ (s : ChaosRecipeSet) (n : Nat), (allItems s).Nodup →
        ((genBundles n s).flatten).Nodup)
  ∧ (∀ s : ChaosRecipeSet, InvAdvance (genNext s).2 s)
  ∧ (exH1 ∈ allItems exC10 ∧ exH1 ∉ (genBundles 2 exC10).flatten
      ∧ genBundles 2 exC10 = [exBundleC10]
      ∧ (genNext exC10).2 ItemType.Weapon1HOrShield = ([], [])) := by
  refine ⟨?_, genNext_sfx, by decide, by decide, by decide, by decide⟩
  intro s n hnd
  rw [List.nodup_iff_count_le_one] at hnd ⊢
  intro a
  exact le_trans (genBundles_count n s a) (hnd a)

/-- C10 witness: the no-duplication theorem applied to the concrete
inventory `exC10`, whose items are pairwise distinct. -/
theorem c10_no_reuse_witness :
    (allItems exC10).Nodup ∧ ((genBundles 2 exC10).flatten).Nodup :=
  ⟨by decide, c10_no_reuse.1 exC10 2 (by decide)⟩

end ChaosHelper
